import Mathlib

/-!
Verification of the WorkLead reconciliation engine (`src/core/sync_logic.py`)
against its specification.

The Python dictionaries `lead_to_card` / `card_to_lead` are embedded as
association lists over `String` with Python-dict semantics: `d[k] = v` is
`ainsert` (lookup of `k` afterwards gives `v`, other keys unchanged),
`d.pop(k, None)` is `aerase`, `d.get(k)` is `alookup`, `k in d` is key
membership.  Python truthiness of an optional string (`if card_id:`) is
`otruthy`: `None` and the empty string are falsy.

External collaborators (the lead-tracker and work-tracker clients, the file
system, the clock) are an explicit environment `Env`: stores are lists,
fallible calls carry an oracle saying whether they succeed (an exception in
the Python source corresponds to the oracle answering `false` / `none`).
Calls issued to the two external services are accumulated in a trace of
`ExtCall` values.  A raised exception that escapes an engine operation is
a `false` success flag / `Except.error` in that operation's result.
-/

namespace WorkLead

/-- Lookup in an association list: the value of the first entry with the
given key, mirroring a Python dict's `get`. -/
def alookup (m : List (String × String)) (k : String) : Option String :=
  match m with
  | [] => none
  | (k', v) :: rest => if k' = k then some v else alookup rest k

/-- Removal of a key, mirroring `dict.pop(k, None)`. -/
def aerase (m : List (String × String)) (k : String) : List (String × String) :=
  m.filter (fun p => p.1 ≠ k)

/-- Insertion/overwrite `d[k] = v` of a Python dict. -/
def ainsert (m : List (String × String)) (k v : String) : List (String × String) :=
  (k, v) :: aerase m k

/-- The key set of a dict. -/
def keys (m : List (String × String)) : List String :=
  m.map Prod.fst

/-- Python truthiness of an optional string: `None` and `""` are falsy. -/
def otruthy : Option String → Bool
  | none => false
  | some s => !(s == "")

/-- The persisted mapping structure (`data/mapping.json`). -/
structure Mapping where
  lead_to_card : List (String × String)
  card_to_lead : List (String × String)
  last_sync : Option Nat
  sync_count : Nat
deriving DecidableEq

/-- A row of the lead sheet, as consumed by the engine. -/
structure Lead where
  id : String
  name : String
  email : String
  source : String
  status : String
  trello_card_id : Option String
deriving DecidableEq

/-- A Trello card, as consumed by the engine. -/
structure Card where
  id : String
  status : String
deriving DecidableEq

/-- A call issued to one of the two external services. -/
inductive ExtCall where
  | createCard (lead_id card_id : String)
  | updateLeadCardRef (lead_id card_id : String)
  | updateLeadStatus (lead_id status : String)
  | archiveCard (card_id : String)
  | deleteLead (lead_id : String)
  | updateCardStatus (card_id status : String)
deriving DecidableEq

/-- The engine's environment: current contents of the two external stores,
success oracles for the fallible external calls, file-system flags for
`_save_mapping` (`makedirs_ok` for `os.makedirs`, `write_ok` for the
`open`/`json.dump` write), and the current time. -/
structure Env where
  leads : List Lead
  cards : List Card
  create_card : String → Option String
  update_lead_ok : String → Bool
  update_card_status_ok : String → Bool
  archive_card_ok : String → Bool
  delete_lead_ok : String → Bool
  makedirs_ok : Bool
  write_ok : Bool
  now : Nat

/-- `LeadTrackerClient.get_lead_by_id`. -/
def get_lead_by_id (env : Env) (lead_id : String) : Option Lead :=
  env.leads.find? (fun l => l.id == lead_id)

/-- `WorkTrackerClient.get_card_by_id`. -/
def get_card_by_id (env : Env) (card_id : String) : Option Card :=
  env.cards.find? (fun c => c.id == card_id)

/-- `_load_mapping`: the persisted file is `none` when missing, `some none`
when present but failing to load/parse (the `except` branch), and
`some (some data)` when it parses, in which case the parsed data is
returned as-is. -/
def _load_mapping (file : Option (Option Mapping)) : Mapping :=
  match file with
  | some (some data) => data
  | _ =>
    { lead_to_card := [], card_to_lead := [], last_sync := none, sync_count := 0 }

/-- `_save_mapping`: `os.makedirs` runs first (failing before any mutation),
then `last_sync` and `sync_count` are updated in memory, then the file write
runs.  The returned flag is `true` iff no exception was raised; on `false`
the exception is re-raised to the caller with the returned (possibly already
mutated) in-memory mapping. -/
def _save_mapping (env : Env) (m : Mapping) : Mapping × Bool :=
  if env.makedirs_ok then
    ({ m with last_sync := some env.now, sync_count := m.sync_count + 1 },
      env.write_ok)
  else
    (m, false)

/-- State threaded through the `initial_sync` loop. -/
structure BatchState where
  m : Mapping
  calls : List ExtCall
  created : Nat
  skipped : Nat
deriving DecidableEq

/-- The per-lead loop of `initial_sync`: skip `LOST` leads, skip leads whose
id is already a key of `lead_to_card`, otherwise create a card, insert the
pair into both maps, and attempt the `trello_card_id` write-back onto the
lead; a per-lead exception (card creation or write-back) is caught, leaving
the counts untouched. -/
def initialSyncGo (env : Env) (leads : List Lead) (st : BatchState) : BatchState :=
  match leads with
  | [] => st
  | lead :: rest =>
    if lead.status == "LOST" then
      initialSyncGo env rest { st with skipped := st.skipped + 1 }
    else if lead.id ∈ keys st.m.lead_to_card then
      initialSyncGo env rest { st with skipped := st.skipped + 1 }
    else
      match env.create_card lead.id with
      | none => initialSyncGo env rest st
      | some card_id =>
        let m' : Mapping :=
          { st.m with
            lead_to_card := ainsert st.m.lead_to_card lead.id card_id,
            card_to_lead := ainsert st.m.card_to_lead card_id lead.id }
        let calls' := st.calls ++
          [ExtCall.createCard lead.id card_id,
           ExtCall.updateLeadCardRef lead.id card_id]
        if env.update_lead_ok lead.id then
          initialSyncGo env rest
            { m := m', calls := calls', created := st.created + 1,
              skipped := st.skipped }
        else
          initialSyncGo env rest
            { m := m', calls := calls', created := st.created,
              skipped := st.skipped }

instance : DecidableEq (Except Unit (Nat × Nat)) := fun a b =>
  match a, b with
  | Except.error x, Except.error y =>
    if h : x = y then Decidable.isTrue (by rw [h]) else
      Decidable.isFalse (by intro hc; cases hc; exact h rfl)
  | Except.ok x, Except.ok y =>
    if h : x = y then Decidable.isTrue (by rw [h]) else
      Decidable.isFalse (by intro hc; cases hc; exact h rfl)
  | Except.error _, Except.ok _ => Decidable.isFalse (by intro hc; cases hc)
  | Except.ok _, Except.error _ => Decidable.isFalse (by intro hc; cases hc)

/-- Result of `initial_sync`: final in-memory mapping, trace of external
calls, and either the `(created, skipped)` counts or an error when the
end-of-batch `_save_mapping` raised. -/
structure InitOut where
  m : Mapping
  calls : List ExtCall
  result : Except Unit (Nat × Nat)
deriving DecidableEq

/-- `initial_sync`: run the per-lead loop over all leads, then persist once
at the end of the batch; a persist failure is re-raised. -/
def initial_sync (env : Env) (m0 : Mapping) : InitOut :=
  let st := initialSyncGo env env.leads { m := m0, calls := [], created := 0, skipped := 0 }
  let s := _save_mapping env st.m
  { m := s.1, calls := st.calls,
    result := if s.2 then Except.ok (st.created, st.skipped) else Except.error () }

/-- Result of a single-item or scan operation: final mapping, trace, and the
boolean outcome (`false` both for a reported failure and for a raised
exception escaping the operation). -/
structure OpResult where
  m : Mapping
  calls : List ExtCall
  ok : Bool
deriving DecidableEq

/-- `sync_lead_to_task`: if the lead is gone, archive its mapped card (if
any) and drop the pair; otherwise resolve the card from the mapping, with a
repair fallback through the lead's `trello_card_id`, and push the lead's
status onto the card.  All exceptions are caught and reported as `false`. -/
def sync_lead_to_task (env : Env) (m : Mapping) (lead_id : String) : OpResult :=
  match get_lead_by_id env lead_id with
  | none =>
    let card? := alookup m.lead_to_card lead_id
    if otruthy card? then
      let card_id := card?.getD ""
      if env.archive_card_ok card_id then
        let m' : Mapping :=
          { m with lead_to_card := aerase m.lead_to_card lead_id,
                   card_to_lead := aerase m.card_to_lead card_id }
        let s := _save_mapping env m'
        { m := s.1, calls := [ExtCall.archiveCard card_id], ok := s.2 }
      else
        { m := m, calls := [ExtCall.archiveCard card_id], ok := true }
    else
      { m := m, calls := [], ok := false }
  | some lead =>
    let card? := alookup m.lead_to_card lead_id
    if otruthy card? then
      let card_id := card?.getD ""
      { m := m, calls := [ExtCall.updateCardStatus card_id lead.status],
        ok := env.update_card_status_ok card_id }
    else
      if otruthy lead.trello_card_id then
        let card_id := lead.trello_card_id.getD ""
        let m' : Mapping :=
          { m with lead_to_card := ainsert m.lead_to_card lead_id card_id,
                   card_to_lead := ainsert m.card_to_lead card_id lead_id }
        let s := _save_mapping env m'
        if s.2 then
          { m := s.1, calls := [ExtCall.updateCardStatus card_id lead.status],
            ok := env.update_card_status_ok card_id }
        else
          { m := s.1, calls := [], ok := false }
      else
        { m := m, calls := [], ok := false }

/-- `sync_task_to_lead`: mirror of `sync_lead_to_task` without a repair
path — if the card is gone, delete its mapped lead (if any) and drop the
pair; otherwise push the card's status onto the mapped lead. -/
def sync_task_to_lead (env : Env) (m : Mapping) (card_id : String) : OpResult :=
  match get_card_by_id env card_id with
  | none =>
    let lead? := alookup m.card_to_lead card_id
    if otruthy lead? then
      let lead_id := lead?.getD ""
      if env.delete_lead_ok lead_id then
        let m' : Mapping :=
          { m with card_to_lead := aerase m.card_to_lead card_id,
                   lead_to_card := aerase m.lead_to_card lead_id }
        let s := _save_mapping env m'
        { m := s.1, calls := [ExtCall.deleteLead lead_id], ok := s.2 }
      else
        { m := m, calls := [ExtCall.deleteLead lead_id], ok := true }
    else
      { m := m, calls := [], ok := false }
  | some card =>
    let lead? := alookup m.card_to_lead card_id
    if otruthy lead? then
      let lead_id := lead?.getD ""
      { m := m, calls := [ExtCall.updateLeadStatus lead_id card.status],
        ok := env.update_lead_ok lead_id }
    else
      { m := m, calls := [], ok := false }

/-- Result of a bulk driver: final mapping, trace, success count. -/
structure BulkOut where
  m : Mapping
  calls : List ExtCall
  succ : Nat
deriving DecidableEq

/-- Loop of `sync_all_leads_to_tasks`. -/
def syncAllLeadsGo (env : Env) (leads : List Lead) (acc : BulkOut) : BulkOut :=
  match leads with
  | [] => acc
  | lead :: rest =>
    let r := sync_lead_to_task env acc.m lead.id
    syncAllLeadsGo env rest
      { m := r.m, calls := acc.calls ++ r.calls,
        succ := if r.ok then acc.succ + 1 else acc.succ }

/-- `sync_all_leads_to_tasks`: run the single-lead sync for every lead. -/
def sync_all_leads_to_tasks (env : Env) (m : Mapping) : BulkOut :=
  syncAllLeadsGo env env.leads { m := m, calls := [], succ := 0 }

/-- Loop of `sync_all_tasks_to_leads`. -/
def syncAllTasksGo (env : Env) (cards : List Card) (acc : BulkOut) : BulkOut :=
  match cards with
  | [] => acc
  | card :: rest =>
    let r := sync_task_to_lead env acc.m card.id
    syncAllTasksGo env rest
      { m := r.m, calls := acc.calls ++ r.calls,
        succ := if r.ok then acc.succ + 1 else acc.succ }

/-- `sync_all_tasks_to_leads`: run the single-card sync for every card. -/
def sync_all_tasks_to_leads (env : Env) (m : Mapping) : BulkOut :=
  syncAllTasksGo env env.cards { m := m, calls := [], succ := 0 }

/-- Ids of the cards currently present in the task store. -/
def existingCardIds (env : Env) : List String :=
  env.cards.map Card.id

/-- Ids of the leads currently present in the lead store. -/
def existingLeadIds (env : Env) : List String :=
  env.leads.map Lead.id

/-- Loop of `sync_deleted_tasks` over the detected deleted card ids: look up
the mapped lead (skip if falsy), call `delete_lead`, and on success drop the
pair from both maps. -/
def deletedTasksGo (env : Env) (ids : List String) (m : Mapping)
    (calls : List ExtCall) : Mapping × List ExtCall :=
  match ids with
  | [] => (m, calls)
  | card_id :: rest =>
    let lead? := alookup m.card_to_lead card_id
    if otruthy lead? then
      let lead_id := lead?.getD ""
      if env.delete_lead_ok lead_id then
        let m' : Mapping :=
          { m with card_to_lead := aerase m.card_to_lead card_id,
                   lead_to_card := aerase m.lead_to_card lead_id }
        deletedTasksGo env rest m' (calls ++ [ExtCall.deleteLead lead_id])
      else
        deletedTasksGo env rest m (calls ++ [ExtCall.deleteLead lead_id])
    else
      deletedTasksGo env rest m calls

/-- `sync_deleted_tasks`: diff the known card ids against the task store's
current listing, delete the leads of the vanished cards, and persist once at
the end when any deletion was detected (`ok = false` when that persist
raises; the raise propagates to the caller). -/
def sync_deleted_tasks (env : Env) (m : Mapping) : OpResult :=
  let deleted := (keys m.card_to_lead).filter
    (fun cid => !((existingCardIds env).contains cid))
  let r := deletedTasksGo env deleted m []
  if deleted.isEmpty then
    { m := r.1, calls := r.2, ok := true }
  else
    let s := _save_mapping env r.1
    { m := s.1, calls := r.2, ok := s.2 }

/-- Loop of `sync_deleted_leads` over the detected deleted lead ids. -/
def deletedLeadsGo (env : Env) (ids : List String) (m : Mapping)
    (calls : List ExtCall) : Mapping × List ExtCall :=
  match ids with
  | [] => (m, calls)
  | lead_id :: rest =>
    let card? := alookup m.lead_to_card lead_id
    if otruthy card? then
      let card_id := card?.getD ""
      if env.archive_card_ok card_id then
        let m' : Mapping :=
          { m with lead_to_card := aerase m.lead_to_card lead_id,
                   card_to_lead := aerase m.card_to_lead card_id }
        deletedLeadsGo env rest m' (calls ++ [ExtCall.archiveCard card_id])
      else
        deletedLeadsGo env rest m (calls ++ [ExtCall.archiveCard card_id])
    else
      deletedLeadsGo env rest m calls

/-- `sync_deleted_leads`: diff the known lead ids against the lead store's
current listing, archive the cards of the vanished leads, and persist once
at the end when any deletion was detected. -/
def sync_deleted_leads (env : Env) (m : Mapping) : OpResult :=
  let deleted := (keys m.lead_to_card).filter
    (fun lid => !((existingLeadIds env).contains lid))
  let r := deletedLeadsGo env deleted m []
  if deleted.isEmpty then
    { m := r.1, calls := r.2, ok := true }
  else
    let s := _save_mapping env r.1
    { m := s.1, calls := r.2, ok := s.2 }

/-- `full_sync`: the five steps in source order, each step's raised
exception aborting the remaining steps and propagating (`ok = false`). -/
def full_sync (env : Env) (m : Mapping) : OpResult :=
  let r1 := initial_sync env m
  match r1.result with
  | Except.error _ => { m := r1.m, calls := r1.calls, ok := false }
  | Except.ok _ =>
    let r2 := sync_deleted_tasks env r1.m
    if r2.ok then
      let r3 := sync_deleted_leads env r2.m
      if r3.ok then
        let r4 := sync_all_tasks_to_leads env r3.m
        let r5 := sync_all_leads_to_tasks env r4.m
        { m := r5.m, calls := r1.calls ++ r2.calls ++ r3.calls ++ r4.calls ++ r5.calls,
          ok := true }
      else
        { m := r3.m, calls := r1.calls ++ r2.calls ++ r3.calls, ok := false }
    else
      { m := r2.m, calls := r1.calls ++ r2.calls, ok := false }

/-- One-key check of the bijection invariant: the partner of `k` under `fwd`
points back at `k` under `bwd`. -/
def pairOKb (fwd bwd : List (String × String)) (k : String) : Bool :=
  match alookup fwd k with
  | some v => alookup bwd v == some k
  | none => false

/-- Executable form of invariant I1 (the two maps are exact inverses). -/
def I1b (m : Mapping) : Bool :=
  (keys m.lead_to_card).all (pairOKb m.lead_to_card m.card_to_lead) &&
  (keys m.card_to_lead).all (pairOKb m.card_to_lead m.lead_to_card)

/-- Invariant I1 as a proposition. -/
def I1 (m : Mapping) : Prop :=
  I1b m = true

instance (m : Mapping) : Decidable (I1 m) := by
  unfold I1; infer_instance

/-- Side condition under which the repair path of `sync_lead_to_task` cannot
collide with the existing mapping: whenever the repair branch would run for
`lead_id` (the lead exists and its mapping lookup is falsy), the lead id is
genuinely unmapped and the recovered cross-reference id is not already a key
of `card_to_lead`. -/
def RepairSafe (env : Env) (m : Mapping) (lead_id : String) : Prop :=
  ∀ lead, get_lead_by_id env lead_id = some lead →
    otruthy (alookup m.lead_to_card lead_id) = false →
    alookup m.lead_to_card lead_id = none ∧
    ∀ t, lead.trello_card_id = some t → alookup m.card_to_lead t = none

/-- Freshness of the card ids handed out by `create_card` relative to a
starting mapping: no created id is already a key of `card_to_lead`, and no
id is handed out for two different leads. -/
def CreatedFresh (env : Env) (m0 : Mapping) : Prop :=
  (∀ l c, env.create_card l = some c → alookup m0.card_to_lead c = none) ∧
  (∀ l1 l2 c, env.create_card l1 = some c → env.create_card l2 = some c → l1 = l2)

/-- Loop invariant of `initial_sync`: every key of `card_to_lead` was either
present initially or was created for a lead that is now mapped. -/
def BwdNew (env : Env) (m0 m : Mapping) : Prop :=
  ∀ t, alookup m.card_to_lead t ≠ none →
    alookup m0.card_to_lead t ≠ none ∨
    ∃ l, env.create_card l = some t ∧ alookup m.lead_to_card l ≠ none

/-! ### Concrete data used by the witnesses and the counterexample -/

/-- A benign base environment: empty stores, all calls succeed, no card is
ever created. -/
def env0 : Env :=
  { leads := [], cards := [], create_card := fun _ => none,
    update_lead_ok := fun _ => true, update_card_status_ok := fun _ => true,
    archive_card_ok := fun _ => true, delete_lead_ok := fun _ => true,
    makedirs_ok := true, write_ok := true, now := 7 }

/-- The empty mapping structure. -/
def m00 : Mapping :=
  { lead_to_card := [], card_to_lead := [], last_sync := none, sync_count := 0 }

/-- A mapping holding the single pair `("5", "T9")`. -/
def mPair9 : Mapping :=
  { lead_to_card := [(("5"), ("T9"))], card_to_lead := [(("T9"), ("5"))],
    last_sync := none, sync_count := 0 }

/-- A mapping holding the single pair `("1", "T1")`. -/
def mPair : Mapping :=
  { lead_to_card := [(("1"), ("T1"))], card_to_lead := [(("T1"), ("1"))],
    last_sync := none, sync_count := 0 }

/-- Lead `"2"` carrying a stored cross-reference to card `"T1"`. -/
def leadX : Lead :=
  { id := ("2"), name := ("B"), email := (""), source := (""),
    status := ("NEW"), trello_card_id := some ("T1") }

/-- Environment for the C1 counterexample: lead `"2"` exists and its stored
cross-reference points at the already-mapped card `"T1"`. -/
def envC1 : Env :=
  { env0 with leads := [leadX] }

/-- Lead `"2"` with a cross-reference to the unmapped card `"T9"`. -/
def leadY : Lead :=
  { id := ("2"), name := ("B"), email := (""), source := (""),
    status := ("NEW"), trello_card_id := some ("T9") }

/-- Environment whose repair path recovers the fresh card id `"T9"`. -/
def envY : Env :=
  { env0 with leads := [leadY] }

/-- Lead `"1"` with no cross-reference, status `"NEW"`. -/
def leadAnn : Lead :=
  { id := ("1"), name := ("Ann"), email := ("a@x"), source := (""),
    status := ("NEW"), trello_card_id := none }

/-- Environment of the first-run scenario: one fresh lead, card creation
hands out `"C1"` for it. -/
def envE : Env :=
  { env0 with
    leads := [leadAnn],
    create_card := fun l => if l = ("1") then some ("C1") else none }

/-- Environment where the write-back onto the lead store always raises. -/
def envF : Env :=
  { envE with update_lead_ok := fun _ => false }

/-! ### Lemmas about the dict embedding -/

@[simp]
lemma alookup_nil (k : String) : alookup [] k = none := rfl

@[simp]
lemma alookup_cons (a b k : String) (rest : List (String × String)) :
    alookup ((a, b) :: rest) k = if a = k then some b else alookup rest k := rfl

@[simp]
lemma aerase_nil (k : String) : aerase [] k = [] := rfl

lemma aerase_cons (a b k : String) (rest : List (String × String)) :
    aerase ((a, b) :: rest) k =
      if a = k then aerase rest k else (a, b) :: aerase rest k := by
  unfold aerase
  rw [List.filter_cons]
  by_cases h : a = k <;> simp [h]

@[simp]
lemma keys_nil : keys [] = [] := rfl

@[simp]
lemma keys_cons (a b : String) (rest : List (String × String)) :
    keys ((a, b) :: rest) = a :: keys rest := rfl

lemma alookup_aerase (m : List (String × String)) (k k' : String) :
    alookup (aerase m k) k' = if k' = k then none else alookup m k' := by
  induction m with
  | nil => simp
  | cons p rest ih =>
    obtain ⟨a, b⟩ := p
    rw [aerase_cons]
    by_cases hak : a = k
    · rw [if_pos hak, ih]
      by_cases hk' : k' = k
      · rw [if_pos hk', if_pos hk']
      · rw [if_neg hk', if_neg hk', alookup_cons,
          if_neg (fun he => hk' (by rw [← he, ← hak]))]
    · rw [if_neg hak, alookup_cons, alookup_cons]
      by_cases hak' : a = k'
      · rw [if_pos hak', if_pos hak',
          if_neg (fun he : k' = k => hak (by rw [hak', he]))]
      · rw [if_neg hak', if_neg hak', ih]

lemma alookup_ainsert (m : List (String × String)) (k v k' : String) :
    alookup (ainsert m k v) k' = if k = k' then some v else alookup m k' := by
  unfold ainsert
  rw [alookup_cons]
  by_cases h : k = k'
  · rw [if_pos h, if_pos h]
  · rw [if_neg h, if_neg h, alookup_aerase, if_neg (fun he => h (Eq.symm he))]

lemma alookup_eq_none_iff (m : List (String × String)) (k : String) :
    alookup m k = none ↔ k ∉ keys m := by
  induction m with
  | nil => simp
  | cons p rest ih =>
    obtain ⟨a, b⟩ := p
    by_cases h : a = k
    · simp [h]
    · rw [alookup_cons, if_neg h, ih, keys_cons]
      constructor
      · intro hn hmem
        rcases List.mem_cons.mp hmem with he | hm
        · exact h (Eq.symm he)
        · exact hn hm
      · intro hn hm
        exact hn (List.mem_cons_of_mem a hm)

lemma mem_keys_of_alookup {m : List (String × String)} {k v : String}
    (h : alookup m k = some v) : k ∈ keys m := by
  by_contra hmem
  rw [← alookup_eq_none_iff] at hmem
  rw [hmem] at h
  exact Option.noConfusion h

lemma exists_alookup_of_mem_keys {m : List (String × String)} {k : String}
    (h : k ∈ keys m) : ∃ v, alookup m k = some v := by
  cases hl : alookup m k with
  | none => exact absurd ((alookup_eq_none_iff m k).mp hl) (by simp [h])
  | some v => exact ⟨v, rfl⟩

lemma pairOKb_eq {fwd bwd : List (String × String)} {k v : String}
    (h : alookup fwd k = some v) :
    pairOKb fwd bwd k = (alookup bwd v == some k) := by
  unfold pairOKb
  rw [h]

/-- Invariant I1 phrased through lookups. -/
lemma I1_iff (m : Mapping) :
    I1 m ↔
      ((∀ l t, alookup m.lead_to_card l = some t → alookup m.card_to_lead t = some l) ∧
       (∀ t l, alookup m.card_to_lead t = some l → alookup m.lead_to_card l = some t)) := by
  unfold I1 I1b
  rw [Bool.and_eq_true, List.all_eq_true, List.all_eq_true]
  constructor
  · intro h
    constructor
    · intro l t hl
      have := h.1 l (mem_keys_of_alookup hl)
      rw [pairOKb_eq hl] at this
      exact eq_of_beq this
    · intro t l ht
      have := h.2 t (mem_keys_of_alookup ht)
      rw [pairOKb_eq ht] at this
      exact eq_of_beq this
  · intro h
    constructor
    · intro l hl
      obtain ⟨t, ht⟩ := exists_alookup_of_mem_keys hl
      rw [pairOKb_eq ht, h.1 l t ht]
      simp
    · intro t ht
      obtain ⟨l, hl⟩ := exists_alookup_of_mem_keys ht
      rw [pairOKb_eq hl, h.2 t l hl]
      simp

@[simp]
lemma save_lead_to_card (env : Env) (m : Mapping) :
    ((_save_mapping env m).1).lead_to_card = m.lead_to_card := by
  unfold _save_mapping; split <;> rfl

@[simp]
lemma save_card_to_lead (env : Env) (m : Mapping) :
    ((_save_mapping env m).1).card_to_lead = m.card_to_lead := by
  unfold _save_mapping; split <;> rfl

lemma I1_of_maps_eq {m m' : Mapping}
    (h1 : m'.lead_to_card = m.lead_to_card)
    (h2 : m'.card_to_lead = m.card_to_lead) (h : I1 m) : I1 m' := by
  unfold I1 I1b at *
  rw [h1, h2]
  exact h

lemma I1_save (env : Env) (m : Mapping) (h : I1 m) : I1 (_save_mapping env m).1 :=
  I1_of_maps_eq (save_lead_to_card env m) (save_card_to_lead env m) h

/-- Inserting a genuinely new pair on both sides preserves I1. -/
lemma I1_insertPair {m : Mapping} {l t : String} (h : I1 m)
    (hl : alookup m.lead_to_card l = none)
    (ht : alookup m.card_to_lead t = none) :
    I1 { m with lead_to_card := ainsert m.lead_to_card l t,
                card_to_lead := ainsert m.card_to_lead t l } := by
  rw [I1_iff] at h ⊢
  obtain ⟨h1, h2⟩ := h
  constructor
  · intro l' t' hl'
    simp only [alookup_ainsert] at hl' ⊢
    by_cases hll : l = l'
    · subst hll
      simp at hl'
      subst hl'
      simp
    · rw [if_neg hll] at hl'
      have htt : t ≠ t' := by
        intro hee
        subst hee
        rw [h1 l' t hl'] at ht
        exact Option.noConfusion ht
      rw [if_neg htt]
      exact h1 l' t' hl'
  · intro t' l' ht'
    simp only [alookup_ainsert] at ht' ⊢
    by_cases htt : t = t'
    · subst htt
      simp at ht'
      subst ht'
      simp
    · rw [if_neg htt] at ht'
      have hll : l ≠ l' := by
        intro hee
        subst hee
        rw [h2 t' l ht'] at hl
        exact Option.noConfusion hl
      rw [if_neg hll]
      exact h2 t' l' ht'

/-- Erasing both halves of a linked pair (addressed by the lead side)
preserves I1. -/
lemma I1_erasePair_fwd {m : Mapping} {l t : String} (h : I1 m)
    (hlt : alookup m.lead_to_card l = some t) :
    I1 { m with lead_to_card := aerase m.lead_to_card l,
                card_to_lead := aerase m.card_to_lead t } := by
  rw [I1_iff] at h ⊢
  obtain ⟨h1, h2⟩ := h
  have htl : alookup m.card_to_lead t = some l := h1 l t hlt
  constructor
  · intro l' t' hl'
    simp only [alookup_aerase] at hl' ⊢
    by_cases hll : l' = l
    · simp [hll] at hl'
    · rw [if_neg hll] at hl'
      have htt : t' ≠ t := by
        intro hee
        subst hee
        have := h1 l' t' hl'
        rw [this] at htl
        exact hll (Option.some.inj htl)
      rw [if_neg htt]
      exact h1 l' t' hl'
  · intro t' l' ht'
    simp only [alookup_aerase] at ht' ⊢
    by_cases htt : t' = t
    · simp [htt] at ht'
    · rw [if_neg htt] at ht'
      have hll : l' ≠ l := by
        intro hee
        subst hee
        have := h2 t' l' ht'
        rw [this] at hlt
        exact htt (Option.some.inj hlt)
      rw [if_neg hll]
      exact h2 t' l' ht'

/-- Erasing both halves of a linked pair (addressed by the card side)
preserves I1. -/
lemma I1_erasePair_bwd {m : Mapping} {t l : String} (h : I1 m)
    (htl : alookup m.card_to_lead t = some l) :
    I1 { m with lead_to_card := aerase m.lead_to_card l,
                card_to_lead := aerase m.card_to_lead t } := by
  have hlt : alookup m.lead_to_card l = some t := ((I1_iff m).mp h).2 t l htl
  exact I1_erasePair_fwd h hlt

lemma save_ok_of {env : Env} (hmk : env.makedirs_ok = true)
    (hwr : env.write_ok = true) (m : Mapping) :
    _save_mapping env m =
      ({ m with last_sync := some env.now, sync_count := m.sync_count + 1 }, true) := by
  unfold _save_mapping
  rw [hmk, hwr]
  simp

lemma save_fails_of {env : Env} (hwr : env.write_ok = false) (m : Mapping) :
    (_save_mapping env m).2 = false := by
  unfold _save_mapping
  split <;> simp [hwr]

lemma otruthy_some {s : String} (h : s ≠ "") : otruthy (some s) = true := by
  unfold otruthy
  simp [h]

/-! ### C6 — load failure degrades to the fresh empty structure -/

/-- C6: when the mapping file is missing or fails to parse, `_load_mapping`
returns the fresh empty structure (both maps empty, `last_sync` null,
`sync_count` zero) instead of propagating an exception. -/
theorem load_mapping_degrades (file : Option (Option Mapping))
    (h : file = none ∨ file = some none) :
    _load_mapping file = m00 := by
  rcases h with h | h <;> rw [h] <;> rfl

theorem load_mapping_degrades_witness :
    _load_mapping none = m00 ∧ _load_mapping (some none) = m00 :=
  ⟨load_mapping_degrades none (Or.inl rfl),
   load_mapping_degrades (some none) (Or.inr rfl)⟩

/-! ### C7 — persist failure is never swallowed -/

/-- C7: when the file write of `_save_mapping` fails, the failure is
re-raised to the calling operation instead of being handled silently:
`_save_mapping` reports the raise, `initial_sync` ends in an error, and the
archive path of `sync_lead_to_task` makes the in-progress operation report
failure. -/
theorem persist_failure_propagates (env : Env) (m m0 : Mapping)
    (hwr : env.write_ok = false) :
    (_save_mapping env m).2 = false ∧
    (initial_sync env m0).result = Except.error () ∧
    (∀ lead_id card_id, get_lead_by_id env lead_id = none →
      alookup m.lead_to_card lead_id = some card_id → card_id ≠ "" →
      env.archive_card_ok card_id = true →
      (sync_lead_to_task env m lead_id).ok = false) := by
  refine ⟨save_fails_of hwr m, ?_, ?_⟩
  · unfold initial_sync
    simp [save_fails_of hwr]
  · intro lead_id card_id habs hmap hne harch
    unfold sync_lead_to_task
    simp only [habs, hmap, otruthy_some hne, if_true, harch,
      save_fails_of hwr, Option.getD_some]

theorem persist_failure_propagates_witness :
    (_save_mapping { env0 with write_ok := false } mPair).2 = false ∧
    (initial_sync { env0 with write_ok := false } mPair).result = Except.error () ∧
    (sync_lead_to_task { env0 with write_ok := false } mPair ("1")).ok = false := by
  have h := persist_failure_propagates { env0 with write_ok := false } mPair mPair rfl
  exact ⟨h.1, h.2.1, h.2.2 ("1") ("T1") rfl rfl (by decide) rfl⟩

/-! ### C10 — persist mutates the in-memory metadata before the write -/

/-- C10: `_save_mapping` updates `last_sync` and increments `sync_count`
before attempting the file write, so a failing write leaves the in-memory
mapping with the incremented counter and updated timestamp (no rollback),
and a subsequent successful persist increments the counter a second time. -/
theorem persist_mutates_before_write (env env' : Env) (m : Mapping)
    (hmk : env.makedirs_ok = true) (hwr : env.write_ok = false)
    (hmk' : env'.makedirs_ok = true) (hwr' : env'.write_ok = true) :
    _save_mapping env m =
      ({ m with last_sync := some env.now, sync_count := m.sync_count + 1 }, false) ∧
    (_save_mapping env' (_save_mapping env m).1).1.sync_count = m.sync_count + 2 ∧
    (_save_mapping env' (_save_mapping env m).1).2 = true := by
  have h1 : _save_mapping env m =
      ({ m with last_sync := some env.now, sync_count := m.sync_count + 1 }, false) := by
    unfold _save_mapping
    rw [hmk, hwr]
    simp
  refine ⟨h1, ?_, ?_⟩ <;> rw [h1, save_ok_of hmk' hwr']

theorem persist_mutates_before_write_witness :
    _save_mapping { env0 with write_ok := false } m00 =
      ({ m00 with last_sync := some (7), sync_count := 1 }, false) ∧
    (_save_mapping env0 (_save_mapping { env0 with write_ok := false } m00).1).1.sync_count = 2 := by
  have h := persist_mutates_before_write { env0 with write_ok := false } env0 m00
    rfl rfl rfl rfl
  exact ⟨h.1, h.2.1⟩

/-! ### C3 — deletion propagation, lead side -/

/-- C3: for a mapped pair `(L1, T1)`, if `L1` is absent from the lead store
and `sync_lead_to_task L1` runs (with the archive call and the persist
succeeding), the card `T1` is archived via the task adapter, both halves of
the pair are removed, the mapping is persisted, and the operation reports
success; when the absent lead has no mapped card it reports failure. -/
theorem lead_deletion_propagation (env : Env) (m : Mapping) (L1 T1 : String)
    (habs : get_lead_by_id env L1 = none)
    (hmk : env.makedirs_ok = true) (hwr : env.write_ok = true) :
    (alookup m.lead_to_card L1 = some T1 → T1 ≠ "" →
      env.archive_card_ok T1 = true →
      (sync_lead_to_task env m L1).ok = true ∧
      ExtCall.archiveCard T1 ∈ (sync_lead_to_task env m L1).calls ∧
      alookup (sync_lead_to_task env m L1).m.lead_to_card L1 = none ∧
      alookup (sync_lead_to_task env m L1).m.card_to_lead T1 = none ∧
      (sync_lead_to_task env m L1).m.sync_count = m.sync_count + 1 ∧
      (sync_lead_to_task env m L1).m.last_sync = some env.now) ∧
    (alookup m.lead_to_card L1 = none →
      sync_lead_to_task env m L1 = { m := m, calls := [], ok := false }) := by
  constructor
  · intro hmap hne harch
    have hred : sync_lead_to_task env m L1 =
        { m := { m with lead_to_card := aerase m.lead_to_card L1,
                        card_to_lead := aerase m.card_to_lead T1,
                        last_sync := some env.now, sync_count := m.sync_count + 1 },
          calls := [ExtCall.archiveCard T1], ok := true } := by
      unfold sync_lead_to_task
      simp only [habs, hmap, otruthy_some hne, if_true, Option.getD_some, harch,
        save_ok_of hmk hwr]
    rw [hred]
    refine ⟨rfl, by simp, ?_, ?_, rfl, rfl⟩
    · rw [alookup_aerase]
      simp
    · rw [alookup_aerase]
      simp
  · intro hnone
    unfold sync_lead_to_task
    simp [habs, hnone, otruthy]

theorem lead_deletion_propagation_witness :
    (sync_lead_to_task env0 mPair9 ("5")).ok = true ∧
    ExtCall.archiveCard ("T9") ∈ (sync_lead_to_task env0 mPair9 ("5")).calls ∧
    alookup (sync_lead_to_task env0 mPair9 ("5")).m.lead_to_card ("5") = none ∧
    alookup (sync_lead_to_task env0 mPair9 ("5")).m.card_to_lead ("T9") = none := by
  have h := (lead_deletion_propagation env0 mPair9 ("5") ("T9") (by decide) rfl rfl).1
    (by decide) (by decide) rfl
  exact ⟨h.1, h.2.1, h.2.2.1, h.2.2.2.1⟩

/-! ### C5 — the repair path of sync_lead_to_task -/

/-- C5: for a lead `L2` present in the lead store, carrying a stored
cross-reference to card `T2`, with no mapping entry, `sync_lead_to_task L2`
inserts the pair into both maps, persists, then pushes the lead's status
onto `T2` and reports success; if the cross-reference is also absent it
reports failure without mutating the mapping. -/
theorem repair_path_inserts (env : Env) (m : Mapping) (L2 T2 : String) (lead : Lead)
    (hlead : get_lead_by_id env L2 = some lead)
    (hnomap : alookup m.lead_to_card L2 = none)
    (hmk : env.makedirs_ok = true) (hwr : env.write_ok = true) :
    (lead.trello_card_id = some T2 → T2 ≠ "" →
      env.update_card_status_ok T2 = true →
      (sync_lead_to_task env m L2).ok = true ∧
      alookup (sync_lead_to_task env m L2).m.lead_to_card L2 = some T2 ∧
      alookup (sync_lead_to_task env m L2).m.card_to_lead T2 = some L2 ∧
      (sync_lead_to_task env m L2).m.sync_count = m.sync_count + 1 ∧
      ExtCall.updateCardStatus T2 lead.status ∈ (sync_lead_to_task env m L2).calls) ∧
    (lead.trello_card_id = none →
      sync_lead_to_task env m L2 = { m := m, calls := [], ok := false }) := by
  have hfalsy : otruthy (alookup m.lead_to_card L2) = false := by
    rw [hnomap]
    rfl
  constructor
  · intro href hne hupd
    have hred : sync_lead_to_task env m L2 =
        { m := { m with lead_to_card := ainsert m.lead_to_card L2 T2,
                        card_to_lead := ainsert m.card_to_lead T2 L2,
                        last_sync := some env.now, sync_count := m.sync_count + 1 },
          calls := [ExtCall.updateCardStatus T2 lead.status], ok := true } := by
      unfold sync_lead_to_task
      simp only [hlead, hfalsy, href, otruthy_some hne, Option.getD_some,
        save_ok_of hmk hwr, hupd, Bool.false_eq_true, if_false, if_true]
    rw [hred]
    refine ⟨rfl, ?_, ?_, rfl, by simp⟩
    · rw [alookup_ainsert]
      simp
    · rw [alookup_ainsert]
      simp
  · intro href
    unfold sync_lead_to_task
    simp [hlead, hnomap, href, otruthy]

theorem repair_path_inserts_witness :
    (sync_lead_to_task envY m00 ("2")).ok = true ∧
    alookup (sync_lead_to_task envY m00 ("2")).m.lead_to_card ("2") = some ("T9") ∧
    alookup (sync_lead_to_task envY m00 ("2")).m.card_to_lead ("T9") = some ("2") := by
  have h := (repair_path_inserts envY m00 ("2") ("T9") leadY (by decide) rfl rfl rfl).1
    (by decide) (by decide) rfl
  exact ⟨h.1, h.2.1, h.2.2.1⟩

/-! ### C4 — deletion propagation, task side -/

lemma isEmpty_false_of_mem {α : Type} {l : List α} {x : α} (h : x ∈ l) :
    l.isEmpty = false := by
  cases l with
  | nil => cases h
  | cons a rest => rfl

lemma contains_false_of_get_card_none {env : Env} {T1 : String}
    (h : get_card_by_id env T1 = none) :
    (existingCardIds env).contains T1 = false := by
  unfold get_card_by_id at h
  rw [List.find?_eq_none] at h
  unfold existingCardIds
  by_cases hmem : T1 ∈ env.cards.map Card.id
  · obtain ⟨c, hc, hid⟩ := List.mem_map.mp hmem
    have := h c hc
    rw [hid] at this
    simp at this
  · simpa using hmem

lemma deletedTasksGo_calls_mono (env : Env) :
    ∀ (ids : List String) (m : Mapping) (calls : List ExtCall) (c : ExtCall),
      c ∈ calls → c ∈ (deletedTasksGo env ids m calls).2 := by
  intro ids
  induction ids with
  | nil =>
    intro m calls c hc
    simpa [deletedTasksGo] using hc
  | cons cid rest ih =>
    intro m calls c hc
    simp only [deletedTasksGo]
    split
    · split
      · exact ih _ _ _ (List.mem_append_left _ hc)
      · exact ih _ _ _ (List.mem_append_left _ hc)
    · exact ih _ _ _ hc

lemma deletedTasksGo_none_bwd (env : Env) :
    ∀ (ids : List String) (m : Mapping) (calls : List ExtCall) (x : String),
      alookup m.card_to_lead x = none →
      alookup (deletedTasksGo env ids m calls).1.card_to_lead x = none := by
  intro ids
  induction ids with
  | nil =>
    intro m calls x hx
    simpa [deletedTasksGo] using hx
  | cons cid rest ih =>
    intro m calls x hx
    simp only [deletedTasksGo]
    split
    · split
      · apply ih
        simp only [alookup_aerase]
        split
        · rfl
        · exact hx
      · exact ih _ _ _ hx
    · exact ih _ _ _ hx

lemma deletedTasksGo_none_fwd (env : Env) :
    ∀ (ids : List String) (m : Mapping) (calls : List ExtCall) (x : String),
      alookup m.lead_to_card x = none →
      alookup (deletedTasksGo env ids m calls).1.lead_to_card x = none := by
  intro ids
  induction ids with
  | nil =>
    intro m calls x hx
    simpa [deletedTasksGo] using hx
  | cons cid rest ih =>
    intro m calls x hx
    simp only [deletedTasksGo]
    split
    · split
      · apply ih
        simp only [alookup_aerase]
        split
        · rfl
        · exact hx
      · exact ih _ _ _ hx
    · exact ih _ _ _ hx

lemma deletedTasksGo_sync_count (env : Env) :
    ∀ (ids : List String) (m : Mapping) (calls : List ExtCall),
      (deletedTasksGo env ids m calls).1.sync_count = m.sync_count := by
  intro ids
  induction ids with
  | nil =>
    intro m calls
    simp [deletedTasksGo]
  | cons cid rest ih =>
    intro m calls
    simp only [deletedTasksGo]
    split
    · split
      · rw [ih]
      · rw [ih]
    · rw [ih]

lemma deletedTasksGo_removes (env : Env) :
    ∀ (ids : List String) (m : Mapping) (calls : List ExtCall) (T1 L1 : String),
      T1 ∈ ids →
      alookup m.card_to_lead T1 = some L1 → L1 ≠ "" →
      env.delete_lead_ok L1 = true →
      alookup (deletedTasksGo env ids m calls).1.card_to_lead T1 = none ∧
      alookup (deletedTasksGo env ids m calls).1.lead_to_card L1 = none ∧
      ExtCall.deleteLead L1 ∈ (deletedTasksGo env ids m calls).2 := by
  intro ids
  induction ids with
  | nil =>
    intro m calls T1 L1 hmem
    cases hmem
  | cons cid rest ih =>
    intro m calls T1 L1 hmem hmap hne hdel
    by_cases hc : cid = T1
    · subst hc
      unfold deletedTasksGo
      rw [hmap]
      simp only [otruthy_some hne, if_true, Option.getD_some, hdel]
      refine ⟨?_, ?_, ?_⟩
      · apply deletedTasksGo_none_bwd
        simp [alookup_aerase]
      · apply deletedTasksGo_none_fwd
        simp [alookup_aerase]
      · exact deletedTasksGo_calls_mono env _ _ _ _
          (List.mem_append_right _ (List.mem_singleton.mpr rfl))
    · have hmem' : T1 ∈ rest := by
        rcases List.mem_cons.mp hmem with h | h
        · exact absurd (Eq.symm h) hc
        · exact h
      simp only [deletedTasksGo]
      split
      · split
        · apply ih _ _ _ _ hmem' _ hne hdel
          simp only [alookup_aerase]
          rw [if_neg (fun he => hc (Eq.symm he))]
          exact hmap
        · exact ih _ _ _ _ hmem' hmap hne hdel
      · exact ih _ _ _ _ hmem' hmap hne hdel

/-- C4: for a mapped pair `(L1, T1)`, if `T1` is absent from the task store,
then `sync_task_to_lead T1` deletes `L1` via the lead adapter, removes both
halves of the pair, persists, and reports success (failure when the absent
card is unmapped); and `sync_deleted_tasks`, detecting `T1` among
known-minus-existing ids, likewise deletes `L1` and removes the pair. -/
theorem task_deletion_propagation (env : Env) (m : Mapping) (T1 L1 : String)
    (habs : get_card_by_id env T1 = none)
    (hmk : env.makedirs_ok = true) (hwr : env.write_ok = true) :
    (alookup m.card_to_lead T1 = some L1 → L1 ≠ "" →
      env.delete_lead_ok L1 = true →
      (sync_task_to_lead env m T1).ok = true ∧
      ExtCall.deleteLead L1 ∈ (sync_task_to_lead env m T1).calls ∧
      alookup (sync_task_to_lead env m T1).m.card_to_lead T1 = none ∧
      alookup (sync_task_to_lead env m T1).m.lead_to_card L1 = none ∧
      (sync_task_to_lead env m T1).m.sync_count = m.sync_count + 1) ∧
    (alookup m.card_to_lead T1 = none →
      sync_task_to_lead env m T1 = { m := m, calls := [], ok := false }) ∧
    (alookup m.card_to_lead T1 = some L1 → L1 ≠ "" →
      env.delete_lead_ok L1 = true →
      ExtCall.deleteLead L1 ∈ (sync_deleted_tasks env m).calls ∧
      alookup (sync_deleted_tasks env m).m.card_to_lead T1 = none ∧
      alookup (sync_deleted_tasks env m).m.lead_to_card L1 = none ∧
      (sync_deleted_tasks env m).ok = true ∧
      (sync_deleted_tasks env m).m.sync_count = m.sync_count + 1) := by
  refine ⟨?_, ?_, ?_⟩
  · intro hmap hne hdel
    have hred : sync_task_to_lead env m T1 =
        { m := { m with card_to_lead := aerase m.card_to_lead T1,
                        lead_to_card := aerase m.lead_to_card L1,
                        last_sync := some env.now, sync_count := m.sync_count + 1 },
          calls := [ExtCall.deleteLead L1], ok := true } := by
      unfold sync_task_to_lead
      simp only [habs, hmap, otruthy_some hne, if_true, Option.getD_some, hdel,
        save_ok_of hmk hwr]
    rw [hred]
    refine ⟨rfl, by simp, ?_, ?_, rfl⟩
    · rw [alookup_aerase]
      simp
    · rw [alookup_aerase]
      simp
  · intro hnone
    unfold sync_task_to_lead
    simp [habs, hnone, otruthy]
  · intro hmap hne hdel
    have hcont := contains_false_of_get_card_none habs
    have hTdel : T1 ∈ (keys m.card_to_lead).filter
        (fun cid => !((existingCardIds env).contains cid)) :=
      List.mem_filter.mpr ⟨mem_keys_of_alookup hmap, by rw [hcont]; rfl⟩
    have hemp := isEmpty_false_of_mem hTdel
    have hrem := deletedTasksGo_removes env _ m [] T1 L1 hTdel hmap hne hdel
    unfold sync_deleted_tasks
    simp only [hemp, Bool.false_eq_true, if_false, save_ok_of hmk hwr]
    exact ⟨hrem.2.2, hrem.1, hrem.2.1, trivial, by rw [deletedTasksGo_sync_count]⟩

theorem task_deletion_propagation_witness :
    (sync_task_to_lead env0 mPair ("T1")).ok = true ∧
    ExtCall.deleteLead ("1") ∈ (sync_task_to_lead env0 mPair ("T1")).calls ∧
    alookup (sync_task_to_lead env0 mPair ("T1")).m.card_to_lead ("T1") = none ∧
    alookup (sync_deleted_tasks env0 mPair).m.lead_to_card ("1") = none ∧
    (sync_deleted_tasks env0 mPair).ok = true := by
  have h := task_deletion_propagation env0 mPair ("T1") ("1") (by decide) rfl rfl
  have h1 := h.1 (by decide) (by decide) rfl
  have h3 := h.2.2 (by decide) (by decide) rfl
  exact ⟨h1.1, h1.2.1, h1.2.2.1, h3.2.2.1, h3.2.2.2.1⟩

/-! ### C8 — FullSync step structure and failure propagation -/

lemma initial_sync_ok_of {env : Env} (hmk : env.makedirs_ok = true)
    (hwr : env.write_ok = true) (m0 : Mapping) :
    (initial_sync env m0).result = Except.ok
      ((initialSyncGo env env.leads
          { m := m0, calls := [], created := 0, skipped := 0 }).created,
       (initialSyncGo env env.leads
          { m := m0, calls := [], created := 0, skipped := 0 }).skipped) := by
  unfold initial_sync
  simp [save_ok_of hmk hwr]

lemma sync_deleted_tasks_ok_of {env : Env} (hmk : env.makedirs_ok = true)
    (hwr : env.write_ok = true) (m : Mapping) :
    (sync_deleted_tasks env m).ok = true := by
  simp only [sync_deleted_tasks]
  split
  · rfl
  · simp [save_ok_of hmk hwr]

lemma sync_deleted_leads_ok_of {env : Env} (hmk : env.makedirs_ok = true)
    (hwr : env.write_ok = true) (m : Mapping) :
    (sync_deleted_leads env m).ok = true := by
  simp only [sync_deleted_leads]
  split
  · rfl
  · simp [save_ok_of hmk hwr]

/-- C8: `full_sync` executes exactly the five steps `initial_sync`,
`sync_deleted_tasks`, `sync_deleted_leads`, `sync_all_tasks_to_leads`,
`sync_all_leads_to_tasks` in that order — when no step raises, its result is
the in-order composition of the five with the traces concatenated — and an
unhandled failure raised by a step (the persist raise of the first step
below) prevents every later step from running and is re-raised to the
caller. -/
theorem full_sync_steps (env : Env) (m : Mapping) :
    (env.makedirs_ok = true → env.write_ok = true →
      full_sync env m =
        { m := (sync_all_leads_to_tasks env
                  (sync_all_tasks_to_leads env
                    (sync_deleted_leads env
                      (sync_deleted_tasks env (initial_sync env m).m).m).m).m).m,
          calls := (initial_sync env m).calls ++
            (sync_deleted_tasks env (initial_sync env m).m).calls ++
            (sync_deleted_leads env
              (sync_deleted_tasks env (initial_sync env m).m).m).calls ++
            (sync_all_tasks_to_leads env
              (sync_deleted_leads env
                (sync_deleted_tasks env (initial_sync env m).m).m).m).calls ++
            (sync_all_leads_to_tasks env
              (sync_all_tasks_to_leads env
                (sync_deleted_leads env
                  (sync_deleted_tasks env (initial_sync env m).m).m).m).m).calls,
          ok := true }) ∧
    ((initial_sync env m).result = Except.error () →
      full_sync env m =
        { m := (initial_sync env m).m, calls := (initial_sync env m).calls,
          ok := false }) := by
  constructor
  · intro hmk hwr
    simp only [full_sync, initial_sync_ok_of hmk hwr,
      sync_deleted_tasks_ok_of hmk hwr, sync_deleted_leads_ok_of hmk hwr,
      if_true]
  · intro herr
    simp only [full_sync, herr]

theorem full_sync_steps_witness :
    (full_sync envE m00).ok = true ∧
    full_sync { envE with write_ok := false } m00 =
      { m := (initial_sync { envE with write_ok := false } m00).m,
        calls := (initial_sync { envE with write_ok := false } m00).calls,
        ok := false } := by
  constructor
  · rw [(full_sync_steps envE m00).1 rfl rfl]
  · exact (full_sync_steps { envE with write_ok := false } m00).2 (by decide)

/-! ### C2 — idempotency of InitialSync -/

lemma mem_keys_iff_isSome (m : List (String × String)) (k : String) :
    k ∈ keys m ↔ (alookup m k).isSome = true := by
  constructor
  · intro h
    obtain ⟨v, hv⟩ := exists_alookup_of_mem_keys h
    rw [hv]
    rfl
  · intro h
    cases hl : alookup m k with
    | none => rw [hl] at h; simp at h
    | some v => exact mem_keys_of_alookup hl

lemma mem_keys_ainsert {m : List (String × String)} {k' : String} (k v : String)
    (h : k' ∈ keys m) : k' ∈ keys (ainsert m k v) := by
  rw [mem_keys_iff_isSome] at h ⊢
  rw [alookup_ainsert]
  split
  · rfl
  · exact h

lemma mem_keys_ainsert_self (m : List (String × String)) (k v : String) :
    k ∈ keys (ainsert m k v) := by
  rw [mem_keys_iff_isSome, alookup_ainsert, if_pos rfl]
  rfl

lemma initialSyncGo_keys_mono (env : Env) :
    ∀ (leads : List Lead) (st : BatchState) (k : String),
      k ∈ keys st.m.lead_to_card →
      k ∈ keys (initialSyncGo env leads st).m.lead_to_card := by
  intro leads
  induction leads with
  | nil =>
    intro st k hk
    simpa [initialSyncGo] using hk
  | cons lead rest ih =>
    intro st k hk
    simp only [initialSyncGo]
    split
    · exact ih _ _ hk
    · split
      · exact ih _ _ hk
      · split
        · exact ih _ _ hk
        · split
          · exact ih _ _ (mem_keys_ainsert _ _ hk)
          · exact ih _ _ (mem_keys_ainsert _ _ hk)

lemma initialSyncGo_covers (env : Env) :
    ∀ (leads : List Lead) (st : BatchState),
      (∀ lead ∈ leads, (env.create_card lead.id).isSome = true) →
      ∀ lead ∈ leads, ¬ lead.status = "LOST" →
        lead.id ∈ keys (initialSyncGo env leads st).m.lead_to_card := by
  intro leads
  induction leads with
  | nil =>
    intro st _ lead h
    cases h
  | cons l rest ih =>
    intro st hc lead hmem hst
    rcases List.mem_cons.mp hmem with heq | hmem'
    · subst heq
      simp only [initialSyncGo]
      split
      · rename_i hlost
        exact absurd (eq_of_beq hlost) hst
      · split
        · rename_i hm
          exact initialSyncGo_keys_mono env rest _ _ hm
        · split
          · rename_i hnone
            have := hc lead (List.mem_cons_self lead rest)
            rw [hnone] at this
            simp at this
          · split
            · exact initialSyncGo_keys_mono env rest _ _
                (mem_keys_ainsert_self _ _ _)
            · exact initialSyncGo_keys_mono env rest _ _
                (mem_keys_ainsert_self _ _ _)
    · have hc' : ∀ x ∈ rest, (env.create_card x.id).isSome = true :=
        fun x hx => hc x (List.mem_cons_of_mem l hx)
      simp only [initialSyncGo]
      split
      · exact ih _ hc' lead hmem' hst
      · split
        · exact ih _ hc' lead hmem' hst
        · split
          · exact ih _ hc' lead hmem' hst
          · split
            · exact ih _ hc' lead hmem' hst
            · exact ih _ hc' lead hmem' hst

lemma initialSyncGo_all_skip (env : Env) :
    ∀ (leads : List Lead) (st : BatchState),
      (∀ lead ∈ leads, lead.status = "LOST" ∨ lead.id ∈ keys st.m.lead_to_card) →
      (initialSyncGo env leads st).m = st.m ∧
      (initialSyncGo env leads st).calls = st.calls ∧
      (initialSyncGo env leads st).created = st.created ∧
      (initialSyncGo env leads st).skipped = st.skipped + leads.length := by
  intro leads
  induction leads with
  | nil =>
    intro st _
    simp [initialSyncGo]
  | cons l rest ih =>
    intro st h
    have hl := h l (List.mem_cons_self l rest)
    simp only [initialSyncGo]
    by_cases hlost : (l.status == "LOST") = true
    · rw [if_pos hlost]
      obtain ⟨h1, h2, h3, h4⟩ := ih { st with skipped := st.skipped + 1 }
        (fun x hx => h x (List.mem_cons_of_mem l hx))
      refine ⟨h1, h2, h3, ?_⟩
      rw [h4]
      simp only [List.length_cons]
      omega
    · rw [if_neg hlost]
      have hmem : l.id ∈ keys st.m.lead_to_card := by
        rcases hl with hlost' | hm
        · exact absurd (by rw [hlost']; simp) hlost
        · exact hm
      rw [if_pos hmem]
      obtain ⟨h1, h2, h3, h4⟩ := ih { st with skipped := st.skipped + 1 }
        (fun x hx => h x (List.mem_cons_of_mem l hx))
      refine ⟨h1, h2, h3, ?_⟩
      rw [h4]
      simp only [List.length_cons]
      omega

lemma initial_sync_maps (env : Env) (m0 : Mapping) :
    (initial_sync env m0).m.lead_to_card =
      (initialSyncGo env env.leads
        { m := m0, calls := [], created := 0, skipped := 0 }).m.lead_to_card ∧
    (initial_sync env m0).m.card_to_lead =
      (initialSyncGo env env.leads
        { m := m0, calls := [], created := 0, skipped := 0 }).m.card_to_lead := by
  simp only [initial_sync]
  exact ⟨save_lead_to_card env _, save_card_to_lead env _⟩

/-- C2: running `initial_sync` twice in succession against the same stores
(with every card creation succeeding and the persist succeeding) creates
zero tasks on the second run: every lead is skipped (already mapped or
`LOST`), the reported counts are `(0, number of leads)`, and no external
call at all is issued by the second run. -/
theorem initial_sync_idempotent (env : Env) (m0 : Mapping)
    (hc : ∀ lead ∈ env.leads, (env.create_card lead.id).isSome = true)
    (hmk : env.makedirs_ok = true) (hwr : env.write_ok = true) :
    (initial_sync env (initial_sync env m0).m).result =
      Except.ok (0, env.leads.length) ∧
    (initial_sync env (initial_sync env m0).m).calls = [] := by
  have hkeys : ∀ lead ∈ env.leads, lead.status = "LOST" ∨
      lead.id ∈ keys (initial_sync env m0).m.lead_to_card := by
    intro lead hmem
    by_cases hst : lead.status = "LOST"
    · exact Or.inl hst
    · right
      rw [(initial_sync_maps env m0).1]
      exact initialSyncGo_covers env env.leads
        { m := m0, calls := [], created := 0, skipped := 0 } hc lead hmem hst
  generalize hM : (initial_sync env m0).m = M at hkeys ⊢
  obtain ⟨g1, g2, g3, g4⟩ := initialSyncGo_all_skip env env.leads
    { m := M, calls := [], created := 0, skipped := 0 } hkeys
  simp only [initial_sync, save_ok_of hmk hwr]
  constructor
  · simp only [g3, g4, if_true]
    rw [Nat.zero_add]
  · exact g2

theorem initial_sync_idempotent_witness :
    (initial_sync envE (initial_sync envE m00).m).result = Except.ok (0, 1) ∧
    (initial_sync envE (initial_sync envE m00).m).calls = [] := by
  have h := initial_sync_idempotent envE m00 (by decide) rfl rfl
  exact ⟨h.1, h.2⟩

/-! ### C9 — write-back failure after a successful card creation -/

lemma initialSyncGo_preserves_pair (env : Env) (L C : String)
    (hinj : ∀ l, env.create_card l = some C → l = L) :
    ∀ (leads : List Lead) (st : BatchState),
      alookup st.m.lead_to_card L = some C →
      alookup st.m.card_to_lead C = some L →
      alookup (initialSyncGo env leads st).m.lead_to_card L = some C ∧
      alookup (initialSyncGo env leads st).m.card_to_lead C = some L := by
  intro leads
  induction leads with
  | nil =>
    intro st h1 h2
    simpa [initialSyncGo] using And.intro h1 h2
  | cons l rest ih =>
    intro st h1 h2
    simp only [initialSyncGo]
    by_cases hlost : (l.status == "LOST") = true
    · rw [if_pos hlost]
      exact ih _ h1 h2
    · rw [if_neg hlost]
      by_cases hm : l.id ∈ keys st.m.lead_to_card
      · rw [if_pos hm]
        exact ih _ h1 h2
      · rw [if_neg hm]
        cases hcc : env.create_card l.id with
        | none =>
          simp only [hcc]
          exact ih _ h1 h2
        | some card_id =>
          simp only [hcc]
          have hlid : ¬ l.id = L := fun he =>
            hm (by rw [he]; exact mem_keys_of_alookup h1)
          have hcid : ¬ card_id = C := fun he =>
            hm (by rw [hinj l.id (he ▸ hcc)]; exact mem_keys_of_alookup h1)
          have harg1 : alookup (ainsert st.m.lead_to_card l.id card_id) L = some C := by
            rw [alookup_ainsert, if_neg hlid]
            exact h1
          have harg2 : alookup (ainsert st.m.card_to_lead card_id l.id) C = some L := by
            rw [alookup_ainsert, if_neg hcid]
            exact h2
          by_cases hup' : env.update_lead_ok l.id = true
          · rw [if_pos hup']
            exact ih _ harg1 harg2
          · rw [if_neg hup']
            exact ih _ harg1 harg2

/-- C9: during `initial_sync`, when the card creation for a lead succeeds
but the cross-reference write-back onto the lead store raises, the freshly
inserted pair is already in both maps and survives to the end of the batch
(and so is included in the end-of-batch persist), while the lead is counted
in neither the created count nor the skipped count: the loop step passes
both counters through unchanged. -/
theorem writeback_failure_keeps_pair (env : Env) (m0 : Mapping) (lead : Lead)
    (rest : List Lead) (cid : String)
    (hleads : env.leads = lead :: rest)
    (hst : ¬ lead.status = "LOST")
    (hun : ¬ lead.id ∈ keys m0.lead_to_card)
    (hcc : env.create_card lead.id = some cid)
    (hup : env.update_lead_ok lead.id = false)
    (hinj : ∀ l, env.create_card l = some cid → l = lead.id) :
    (∀ st : BatchState, st.m = m0 →
      initialSyncGo env (lead :: rest) st =
        initialSyncGo env rest
          { m := { m0 with
              lead_to_card := ainsert m0.lead_to_card lead.id cid,
              card_to_lead := ainsert m0.card_to_lead cid lead.id },
            calls := st.calls ++ [ExtCall.createCard lead.id cid,
              ExtCall.updateLeadCardRef lead.id cid],
            created := st.created, skipped := st.skipped }) ∧
    alookup (initial_sync env m0).m.lead_to_card lead.id = some cid ∧
    alookup (initial_sync env m0).m.card_to_lead cid = some lead.id ∧
    (env.makedirs_ok = true → env.write_ok = true →
      (initial_sync env m0).result = Except.ok
        ((initialSyncGo env rest
            { m := { m0 with
                lead_to_card := ainsert m0.lead_to_card lead.id cid,
                card_to_lead := ainsert m0.card_to_lead cid lead.id },
              calls := [ExtCall.createCard lead.id cid,
                ExtCall.updateLeadCardRef lead.id cid],
              created := 0, skipped := 0 }).created,
         (initialSyncGo env rest
            { m := { m0 with
                lead_to_card := ainsert m0.lead_to_card lead.id cid,
                card_to_lead := ainsert m0.card_to_lead cid lead.id },
              calls := [ExtCall.createCard lead.id cid,
                ExtCall.updateLeadCardRef lead.id cid],
              created := 0, skipped := 0 }).skipped)) := by
  have hstep : ∀ st : BatchState, st.m = m0 →
      initialSyncGo env (lead :: rest) st =
        initialSyncGo env rest
          { m := { m0 with
              lead_to_card := ainsert m0.lead_to_card lead.id cid,
              card_to_lead := ainsert m0.card_to_lead cid lead.id },
            calls := st.calls ++ [ExtCall.createCard lead.id cid,
              ExtCall.updateLeadCardRef lead.id cid],
            created := st.created, skipped := st.skipped } := by
    intro st hstm
    cases st with
    | mk sm scalls scr ssk =>
      cases hstm
      simp only [initialSyncGo]
      rw [if_neg (fun hb => hst (eq_of_beq hb))]
      rw [if_neg hun]
      simp only [hcc, hup]
      rw [if_neg (by simp)]
  have hrun : initialSyncGo env env.leads
      { m := m0, calls := [], created := 0, skipped := 0 } =
      initialSyncGo env rest
        { m := { m0 with
            lead_to_card := ainsert m0.lead_to_card lead.id cid,
            card_to_lead := ainsert m0.card_to_lead cid lead.id },
          calls := [ExtCall.createCard lead.id cid,
            ExtCall.updateLeadCardRef lead.id cid],
          created := 0, skipped := 0 } := by
    rw [hleads]
    have h := hstep { m := m0, calls := [], created := 0, skipped := 0 } rfl
    simpa using h
  have hfwd1 : alookup (ainsert m0.lead_to_card lead.id cid) lead.id = some cid := by
    rw [alookup_ainsert, if_pos rfl]
  have hbwd1 : alookup (ainsert m0.card_to_lead cid lead.id) cid = some lead.id := by
    rw [alookup_ainsert, if_pos rfl]
  have hpres := initialSyncGo_preserves_pair env lead.id cid hinj rest
    { m := { m0 with
        lead_to_card := ainsert m0.lead_to_card lead.id cid,
        card_to_lead := ainsert m0.card_to_lead cid lead.id },
      calls := [ExtCall.createCard lead.id cid,
        ExtCall.updateLeadCardRef lead.id cid],
      created := 0, skipped := 0 } hfwd1 hbwd1
  refine ⟨hstep, ?_, ?_, ?_⟩
  · rw [(initial_sync_maps env m0).1, hrun]
    exact hpres.1
  · rw [(initial_sync_maps env m0).2, hrun]
    exact hpres.2
  · intro hmk hwr
    rw [initial_sync_ok_of hmk hwr, hrun]

theorem writeback_failure_keeps_pair_witness :
    alookup (initial_sync envF m00).m.lead_to_card ("1") = some ("C1") ∧
    alookup (initial_sync envF m00).m.card_to_lead ("C1") = some ("1") ∧
    (initial_sync envF m00).result = Except.ok (0, 0) := by
  have hinj : ∀ l, envF.create_card l = some ("C1") → l = ("1") := by
    intro l h
    by_cases hl : l = ("1")
    · exact hl
    · rw [show envF.create_card l = (if l = ("1") then some ("C1") else none) from rfl,
        if_neg hl] at h
      cases h
  have h := writeback_failure_keeps_pair envF m00 leadAnn [] ("C1")
    rfl (by decide) (by decide) (by decide) rfl hinj
  exact ⟨h.2.1, h.2.2.1, h.2.2.2 rfl rfl⟩

/-! ### C1 — the bijection invariant -/

lemma bool_eq_false {b : Bool} (h : ¬ b = true) : b = false := by
  cases b
  · rfl
  · exact absurd rfl h

lemma deletedTasksGo_I1 (env : Env) :
    ∀ (ids : List String) (m : Mapping) (calls : List ExtCall),
      I1 m → I1 (deletedTasksGo env ids m calls).1 := by
  intro ids
  induction ids with
  | nil =>
    intro m calls h
    simpa [deletedTasksGo] using h
  | cons cid rest ih =>
    intro m calls h
    simp only [deletedTasksGo]
    cases hl : alookup m.card_to_lead cid with
    | none =>
      simp only [otruthy, Bool.false_eq_true, if_false]
      exact ih _ _ h
    | some lid =>
      by_cases h1 : otruthy (some lid) = true
      · rw [if_pos h1]
        simp only [Option.getD_some]
        by_cases h2 : env.delete_lead_ok lid = true
        · rw [if_pos h2]
          exact ih _ _ (I1_erasePair_bwd h hl)
        · rw [if_neg h2]
          exact ih _ _ h
      · rw [if_neg h1]
        exact ih _ _ h

lemma deletedLeadsGo_I1 (env : Env) :
    ∀ (ids : List String) (m : Mapping) (calls : List ExtCall),
      I1 m → I1 (deletedLeadsGo env ids m calls).1 := by
  intro ids
  induction ids with
  | nil =>
    intro m calls h
    simpa [deletedLeadsGo] using h
  | cons lid rest ih =>
    intro m calls h
    simp only [deletedLeadsGo]
    cases hl : alookup m.lead_to_card lid with
    | none =>
      simp only [otruthy, Bool.false_eq_true, if_false]
      exact ih _ _ h
    | some cid =>
      by_cases h1 : otruthy (some cid) = true
      · rw [if_pos h1]
        simp only [Option.getD_some]
        by_cases h2 : env.archive_card_ok cid = true
        · rw [if_pos h2]
          exact ih _ _ (I1_erasePair_fwd h hl)
        · rw [if_neg h2]
          exact ih _ _ h
      · rw [if_neg h1]
        exact ih _ _ h

lemma sync_deleted_tasks_I1 (env : Env) (m : Mapping) (h : I1 m) :
    I1 (sync_deleted_tasks env m).m := by
  simp only [sync_deleted_tasks]
  split
  · exact deletedTasksGo_I1 env _ m [] h
  · exact I1_save env _ (deletedTasksGo_I1 env _ m [] h)

lemma sync_deleted_leads_I1 (env : Env) (m : Mapping) (h : I1 m) :
    I1 (sync_deleted_leads env m).m := by
  simp only [sync_deleted_leads]
  split
  · exact deletedLeadsGo_I1 env _ m [] h
  · exact I1_save env _ (deletedLeadsGo_I1 env _ m [] h)

lemma sync_task_to_lead_I1 (env : Env) (m : Mapping) (card_id : String)
    (h : I1 m) : I1 (sync_task_to_lead env m card_id).m := by
  cases hcard : get_card_by_id env card_id with
  | none =>
    simp only [sync_task_to_lead, hcard]
    cases hl : alookup m.card_to_lead card_id with
    | none =>
      simp only [otruthy, Bool.false_eq_true, if_false]
      exact h
    | some lid =>
      by_cases h1 : otruthy (some lid) = true
      · rw [if_pos h1]
        simp only [Option.getD_some]
        by_cases h2 : env.delete_lead_ok lid = true
        · rw [if_pos h2]
          exact I1_save env _ (I1_erasePair_bwd h hl)
        · rw [if_neg h2]
          exact h
      · rw [if_neg h1]
        exact h
  | some card =>
    simp only [sync_task_to_lead, hcard]
    split
    · exact h
    · exact h

lemma sync_lead_to_task_I1 (env : Env) (m : Mapping) (lead_id : String)
    (h : I1 m) (hrs : RepairSafe env m lead_id) :
    I1 (sync_lead_to_task env m lead_id).m := by
  cases hlead : get_lead_by_id env lead_id with
  | none =>
    simp only [sync_lead_to_task, hlead]
    cases hl : alookup m.lead_to_card lead_id with
    | none =>
      simp only [otruthy, Bool.false_eq_true, if_false]
      exact h
    | some cid =>
      by_cases h1 : otruthy (some cid) = true
      · rw [if_pos h1]
        simp only [Option.getD_some]
        by_cases h2 : env.archive_card_ok cid = true
        · rw [if_pos h2]
          exact I1_save env _ (I1_erasePair_fwd h hl)
        · rw [if_neg h2]
          exact h
      · rw [if_neg h1]
        exact h
  | some lead =>
    simp only [sync_lead_to_task, hlead]
    by_cases h1 : otruthy (alookup m.lead_to_card lead_id) = true
    · rw [if_pos h1]
      exact h
    · rw [if_neg h1]
      obtain ⟨hfwd, hbwdF⟩ := hrs lead hlead (bool_eq_false h1)
      cases htr : lead.trello_card_id with
      | none =>
        simp only [otruthy, Bool.false_eq_true, if_false]
        exact h
      | some t =>
        by_cases h2 : otruthy (some t) = true
        · rw [if_pos h2]
          simp only [Option.getD_some]
          split
          · exact I1_save env _ (I1_insertPair h hfwd (hbwdF t htr))
          · exact I1_save env _ (I1_insertPair h hfwd (hbwdF t htr))
        · rw [if_neg h2]
          exact h

lemma initialSyncGo_I1 (env : Env) (m0 : Mapping) (hfr : CreatedFresh env m0) :
    ∀ (leads : List Lead) (st : BatchState),
      I1 st.m → BwdNew env m0 st.m →
      I1 (initialSyncGo env leads st).m ∧
      BwdNew env m0 (initialSyncGo env leads st).m := by
  intro leads
  induction leads with
  | nil =>
    intro st h1 h2
    simpa [initialSyncGo] using And.intro h1 h2
  | cons l rest ih =>
    intro st h1 h2
    simp only [initialSyncGo]
    by_cases hlost : (l.status == "LOST") = true
    · rw [if_pos hlost]
      exact ih _ h1 h2
    · rw [if_neg hlost]
      by_cases hm : l.id ∈ keys st.m.lead_to_card
      · rw [if_pos hm]
        exact ih _ h1 h2
      · rw [if_neg hm]
        cases hcc : env.create_card l.id with
        | none =>
          simp only [hcc]
          exact ih _ h1 h2
        | some cid =>
          simp only [hcc]
          have hfwd : alookup st.m.lead_to_card l.id = none :=
            (alookup_eq_none_iff _ _).mpr hm
          have hbwd : alookup st.m.card_to_lead cid = none := by
            by_contra hne
            rcases h2 cid hne with hin | ⟨l', hcl', hfwd'⟩
            · exact hin (hfr.1 l.id cid hcc)
            · rw [hfr.2 l' l.id cid hcl' hcc] at hfwd'
              exact hfwd' hfwd
          have hI1' : I1 { st.m with
              lead_to_card := ainsert st.m.lead_to_card l.id cid,
              card_to_lead := ainsert st.m.card_to_lead cid l.id } :=
            I1_insertPair h1 hfwd hbwd
          have hBwd' : BwdNew env m0 { st.m with
              lead_to_card := ainsert st.m.lead_to_card l.id cid,
              card_to_lead := ainsert st.m.card_to_lead cid l.id } := by
            intro t ht
            simp only [alookup_ainsert] at ht
            by_cases htc : cid = t
            · refine Or.inr ⟨l.id, htc ▸ hcc, ?_⟩
              simp only [alookup_ainsert]
              simp
            · rw [if_neg htc] at ht
              rcases h2 t ht with hin | ⟨l', hcl', hf'⟩
              · exact Or.inl hin
              · refine Or.inr ⟨l', hcl', ?_⟩
                simp only [alookup_ainsert]
                split
                · simp
                · exact hf'
          by_cases hup' : env.update_lead_ok l.id = true
          · rw [if_pos hup']
            exact ih _ hI1' hBwd'
          · rw [if_neg hup']
            exact ih _ hI1' hBwd'

lemma initial_sync_I1 (env : Env) (m : Mapping) (h : I1 m)
    (hfr : CreatedFresh env m) : I1 (initial_sync env m).m := by
  simp only [initial_sync]
  exact I1_save env _ ((initialSyncGo_I1 env m hfr env.leads
    { m := m, calls := [], created := 0, skipped := 0 } h
    (fun t ht => Or.inl ht)).1)

/-- C1 counterexample: from a bijective persisted state, the repair path of
`sync_lead_to_task` grafts a recovered cross-reference onto a card id that
is already mapped to a different lead, mutates the store, persists
(`sync_count` is incremented), and leaves the two maps no longer inverse to
each other — an orphaned half-entry survives the persisted state. -/
theorem repair_breaks_bijection :
    I1 mPair ∧
    (sync_lead_to_task envC1 mPair ("2")).m.lead_to_card ≠ mPair.lead_to_card ∧
    (sync_lead_to_task envC1 mPair ("2")).m.sync_count = mPair.sync_count + 1 ∧
    ¬ I1 (sync_lead_to_task envC1 mPair ("2")).m := by
  decide

/-- C1 (amended): every mutating engine operation preserves the bijection
invariant I1, provided the task ids the operation introduces into the
mapping are fresh — for the repair path of `sync_lead_to_task`, the
recovered cross-reference id must not already be a key of `card_to_lead`
(`RepairSafe`), and for `initial_sync` the created card ids must be fresh
and pairwise distinct (`CreatedFresh`); without the `RepairSafe` proviso
the repair path can persist an orphaned half-entry.  The bulk drivers and
`full_sync` are compositions of these operations. -/
theorem engine_ops_preserve_bijection (env : Env) (m : Mapping) (h : I1 m) :
    (∀ lead_id, RepairSafe env m lead_id →
      I1 (sync_lead_to_task env m lead_id).m) ∧
    (∀ card_id, I1 (sync_task_to_lead env m card_id).m) ∧
    I1 (sync_deleted_tasks env m).m ∧
    I1 (sync_deleted_leads env m).m ∧
    (CreatedFresh env m → I1 (initial_sync env m).m) :=
  ⟨fun lead_id hrs => sync_lead_to_task_I1 env m lead_id h hrs,
   fun card_id => sync_task_to_lead_I1 env m card_id h,
   sync_deleted_tasks_I1 env m h,
   sync_deleted_leads_I1 env m h,
   fun hfr => initial_sync_I1 env m h hfr⟩

theorem engine_ops_preserve_bijection_witness :
    I1 (sync_lead_to_task envY mPair ("2")).m ∧
    I1 (sync_task_to_lead envY mPair ("T1")).m ∧
    I1 (sync_deleted_tasks envY mPair).m ∧
    I1 (initial_sync envE mPair).m := by
  have hY := engine_ops_preserve_bijection envY mPair (by decide)
  have hE := engine_ops_preserve_bijection envE mPair (by decide)
  refine ⟨hY.1 ("2") ?_, hY.2.1 ("T1"), hY.2.2.1, hE.2.2.2.2 ?_⟩
  · intro lead hl hot
    rw [show get_lead_by_id envY ("2") = some leadY by decide] at hl
    cases hl
    constructor
    · decide
    · intro t ht
      rw [show leadY.trello_card_id = some ("T9") from rfl] at ht
      cases ht
      decide
  · constructor
    · intro l c hc
      by_cases hl : l = ("1")
      · rw [show envE.create_card l = (if l = ("1") then some ("C1") else none)
            from rfl, if_pos hl] at hc
        cases hc
        decide
      · rw [show envE.create_card l = (if l = ("1") then some ("C1") else none)
            from rfl, if_neg hl] at hc
        cases hc
    · intro l1 l2 c h1 h2
      by_cases hl1 : l1 = ("1")
      · by_cases hl2 : l2 = ("1")
        · rw [hl1, hl2]
        · rw [show envE.create_card l2 = (if l2 = ("1") then some ("C1") else none)
              from rfl, if_neg hl2] at h2
          cases h2
      · rw [show envE.create_card l1 = (if l1 = ("1") then some ("C1") else none)
            from rfl, if_neg hl1] at h1
        cases h1

end WorkLead
